import Mathlib

/-!
Verification development for the company-search scraper (src/scraper.py).

The program is embedded shallowly:
* `requests.get` is an oracle `net : Nat → Response` giving the response of
  each successive request attempt; `get_response` is the retry loop over it.
* `lxml.html.fromstring` plus the ten XPath queries are an oracle
  `parse : String → ParsedDoc`: a parsed document is characterised by the
  list of text fragments each of the ten structural selectors yields.
* Python's `str.replace`, `str.strip` and `''.join` are modelled by
  executable functions `pyReplace`, `pyStrip`, `pyJoin` on character lists.
* A Python dict (insertion-ordered) is an association list; the CSV file is
  a list of rows of cells; `open(file, 'w')` truncates the file state.
-/

namespace Scraper

/-- Characters removed by Python's argumentless `str.strip`: the Unicode
whitespace set accepted by `str.isspace`. -/
def isPySpace (c : Char) : Bool :=
  c = ' ' || c = '\t' || c = '\n' || c = '\r' || c = '\x0b' || c = '\x0c' ||
  c = '\x1c' || c = '\x1d' || c = '\x1e' || c = '\x1f' || c = '\x85' || c = '\xa0' ||
  c = '\u1680' || c = '\u2000' || c = '\u2001' || c = '\u2002' || c = '\u2003' ||
  c = '\u2004' || c = '\u2005' || c = '\u2006' || c = '\u2007' || c = '\u2008' ||
  c = '\u2009' || c = '\u200a' || c = '\u2028' || c = '\u2029' || c = '\u202f' ||
  c = '\u205f' || c = '\u3000'

/-- Python `str.strip()` on a character list: drop leading and trailing
whitespace. -/
def stripChars (s : List Char) : List Char :=
  ((s.dropWhile isPySpace).reverse.dropWhile isPySpace).reverse

/-- Python `str.strip()` on strings. -/
def pyStrip (s : String) : String :=
  String.mk (stripChars s.data)

/-- Left-to-right, non-overlapping replacement of `pat` by `repl`, the
semantics of Python `str.replace` for a non-empty pattern.  The fuel
argument is the number of characters still allowed to be consumed; calling
it with `s.length` fuel is exact because every step consumes at least one
character of `s`. -/
def replaceFuel (pat repl : List Char) : Nat → List Char → List Char
  | 0, s => s
  | _ + 1, [] => []
  | fuel + 1, c :: rest =>
      if pat.isPrefixOf (c :: rest) then
        repl ++ replaceFuel pat repl fuel ((c :: rest).drop pat.length)
      else
        c :: replaceFuel pat repl fuel rest

/-- Replacement on character lists.  The scraper only ever replaces
non-empty patterns, on which this agrees with Python `str.replace`. -/
def listReplace (pat repl s : List Char) : List Char :=
  if pat = [] then s else replaceFuel pat repl s.length s

/-- Python `s.replace(pat, repl)` for the non-empty patterns the scraper
uses. -/
def pyReplace (s pat repl : String) : String :=
  String.mk (listReplace pat.data repl.data s.data)

/-- Python `''.join(fragments)`. -/
def pyJoin (fragments : List String) : String :=
  String.mk (fragments.map String.data).flatten

/-- Whether `pat` occurs as a contiguous substring of `s`. -/
def hasSubstr (pat : List Char) : List Char → Bool
  | [] => pat.isEmpty
  | c :: rest => pat.isPrefixOf (c :: rest) || hasSubstr pat rest

/-- An HTTP response restricted to the two fields the scraper reads
(`requests.Response.status_code` and `.text`). -/
structure Response where
  status_code : Nat
  text : String
deriving DecidableEq

/-- The retry loop inside `get_response` (scraper.py lines 34-37):
`remaining` loop iterations are left and `attempt` requests were already
made; `net k` is the response the HTTP library returns to the `k`-th
request.  Falls through to `none` when the iterations are exhausted, as the
Python function falls off its end and returns `None`. -/
def get_response_loop (net : Nat → Response) : Nat → Nat → Option Response
  | _, 0 => none
  | attempt, remaining + 1 =>
      if (net attempt).status_code = 200 then some (net attempt)
      else get_response_loop net (attempt + 1) remaining

/-- `get_response` (scraper.py lines 7-37): retry up to 3 times, return the
first response whose status code is exactly 200, otherwise `None`. -/
def get_response (net : Nat → Response) : Option Response :=
  get_response_loop net 0 3

/-- A parsed document, characterised by the raw text fragments each of the
ten XPath selectors of `extract_company_details` yields (scraper.py lines
53-72, in source order). -/
structure ParsedDoc where
  title_texts : List String
  subtitle_texts : List String
  website_hrefs : List String
  description_texts : List String
  stock_price_texts : List String
  ceo_texts : List String
  founder_texts : List String
  founded_texts : List String
  headquarters_texts : List String
  employees_texts : List String

/-- Python `raw[0] if raw else None`. -/
def firstOrNone : List String → Option String
  | [] => none
  | x :: _ => some x

/-- Stock-price normalization (scraper.py line 62):
`''.join(raw).replace('Stock price:', '').replace('\u202f', '').strip()`
when the selector yielded fragments, `None` otherwise. -/
def normalize_stock_price (raw : List String) : Option String :=
  if raw.isEmpty then none
  else some (pyStrip (pyReplace (pyReplace (pyJoin raw) "Stock price:" "") "\u202f" ""))

/-- CEO normalization (scraper.py line 64):
`''.join(raw).replace('CEO', '').strip()` when fragments exist. -/
def normalize_ceo (raw : List String) : Option String :=
  if raw.isEmpty then none
  else some (pyStrip (pyReplace (pyJoin raw) "CEO" ""))

/-- Founder normalization (scraper.py line 66):
`''.join(raw).replace('Founders:', '').replace('Founder:', '').strip()`. -/
def normalize_founder (raw : List String) : Option String :=
  if raw.isEmpty then none
  else some (pyStrip (pyReplace (pyReplace (pyJoin raw) "Founders:" "") "Founder:" ""))

/-- Founded normalization (scraper.py line 68):
`''.join(raw).replace('Founded:', '').strip()`. -/
def normalize_founded (raw : List String) : Option String :=
  if raw.isEmpty then none
  else some (pyStrip (pyReplace (pyJoin raw) "Founded:" ""))

/-- Headquarters normalization (scraper.py line 70):
`''.join(raw).replace('Headquarters:', '').strip()`. -/
def normalize_headquarters (raw : List String) : Option String :=
  if raw.isEmpty then none
  else some (pyStrip (pyReplace (pyJoin raw) "Headquarters:" ""))

/-- Employee-count normalization (scraper.py line 72):
`''.join(raw).replace('Number of employees:', '').strip()`. -/
def normalize_employees (raw : List String) : Option String :=
  if raw.isEmpty then none
  else some (pyStrip (pyReplace (pyJoin raw) "Number of employees:" ""))

/-- A company record: a Python dict modelled as an insertion-ordered
association list from field key to normalized value or the absent marker
`none`. -/
abbrev CompanyRecord := List (String × Option String)

/-- `extract_company_details` (scraper.py lines 41-86): build the
ten-field dict from the selector results of the parsed document. -/
def extract_company_details (parser : ParsedDoc) : CompanyRecord :=
  let company_name := firstOrNone parser.title_texts
  let company_type := firstOrNone parser.subtitle_texts
  let website := firstOrNone parser.website_hrefs
  let description := firstOrNone parser.description_texts
  let stock_price := normalize_stock_price parser.stock_price_texts
  let ceo := normalize_ceo parser.ceo_texts
  let founder := normalize_founder parser.founder_texts
  let founded := normalize_founded parser.founded_texts
  let headquarters := normalize_headquarters parser.headquarters_texts
  let num_of_employees := normalize_employees parser.employees_texts
  [("company_name", company_name),
   ("company_type", company_type),
   ("website", website),
   ("description", description),
   ("stock_price", stock_price),
   ("ceo", ceo),
   ("founder", founder),
   ("founded", founded),
   ("headquarters", headquarters),
   ("number_of_employees", num_of_employees)]

/-- The keys of the dict `extract_company_details` builds, in insertion
order. -/
def tenKeys : List String :=
  ["company_name", "company_type", "website", "description", "stock_price",
   "ceo", "founder", "founded", "headquarters", "number_of_employees"]

/-- The eleven canonical keys of a finished record, after the batch loop
adds `input_company_name`. -/
def elevenKeys : List String :=
  tenKeys ++ ["input_company_name"]

/-- The batch loop of `scrape_data` (scraper.py lines 97-106).  `net c` is
the per-attempt response oracle for company `c`; `parse` turns a page body
into its selector results.  Returns the accumulated record list and the
diagnostics printed for skipped companies, both in loop order. -/
def scrape_loop (net : String → Nat → Response) (parse : String → ParsedDoc) :
    List String → List CompanyRecord × List String
  | [] => ([], [])
  | company :: rest =>
      match get_response (net company) with
      | none =>
          let r := scrape_loop net parse rest
          (r.1, ("Invalid response for company name " ++ company) :: r.2)
      | some response =>
          let company_details :=
            extract_company_details (parse response.text) ++
              [("input_company_name", some company)]
          let r := scrape_loop net parse rest
          (company_details :: r.1, r.2)

/-- The destination file: `none` when it does not exist, otherwise its
contents as a list of CSV rows of cells. -/
abbrev FileState := Option (List (List String))

/-- `csv.DictWriter.writerow`: an error when the dict holds a key outside
`fieldnames` (extrasaction='raise'), otherwise one cell per field name.
A `none` (Python `None`) value is rendered by `csv.writer` as the empty
cell, and a key missing from the dict is filled with the empty restval. -/
def writerow (fieldnames : List String) (r : CompanyRecord) : Except String (List String) :=
  if r.any (fun kv => !(fieldnames.contains kv.1)) then
    Except.error "ValueError: dict contains fields not in fieldnames"
  else
    Except.ok (fieldnames.map fun k =>
      match r.lookup k with
      | some (some s) => s
      | some none => ""
      | none => "")

/-- The row-writing loop of `write_csv` (scraper.py lines 123-124):
`written` rows are already in the file; an error mid-loop leaves the rows
written so far. -/
def write_rows (fieldnames : List String) :
    List CompanyRecord → List (List String) → FileState × Except String Unit
  | [], written => (some written, Except.ok ())
  | r :: rest, written =>
      match writerow fieldnames r with
      | Except.error e => (some written, Except.error e)
      | Except.ok row => write_rows fieldnames rest (written ++ [row])

/-- `write_csv` (scraper.py lines 109-124): `open(file_name, 'w')` first
creates or truncates the destination, then the keys of the first record
become the field names (`company_details_list[0].keys()` raises IndexError
on an empty list, after the truncation), then the header row and one row
per record are written. -/
def write_csv (company_details_list : List CompanyRecord) (_fs : FileState) :
    FileState × Except String Unit :=
  match company_details_list with
  | [] => (some [], Except.error "IndexError: list index out of range")
  | first :: _ =>
      let fieldnames := first.map Prod.fst
      write_rows fieldnames company_details_list [fieldnames]

/-- `scrape_data` (scraper.py lines 89-107): run the batch loop, then write
the accumulated records; returns the final file state, the write result and
the printed diagnostics. -/
def scrape_data (net : String → Nat → Response) (parse : String → ParsedDoc)
    (input_company_names : List String) (fs : FileState) :
    (FileState × Except String Unit) × List String :=
  let r := scrape_loop net parse input_company_names
  (write_csv r.1 fs, r.2)

/-! ### Helper lemmas about the string primitives -/

lemma isPrefixOf_nil_eq (pat : List Char) : pat.isPrefixOf ([] : List Char) = pat.isEmpty := by
  cases pat <;> rfl

lemma isPrefixOf_append_self (l m : List Char) : l.isPrefixOf (l ++ m) = true := by
  induction l with
  | nil => simp [List.isPrefixOf]
  | cons c cs ih => simp [List.isPrefixOf, ih]

lemma hasSubstr_iff (pat : List Char) (s : List Char) :
    hasSubstr pat s = true ↔ ∃ j, pat.isPrefixOf (s.drop j) = true := by
  induction s with
  | nil => simp [hasSubstr, isPrefixOf_nil_eq]
  | cons c rest ih =>
      simp only [hasSubstr, Bool.or_eq_true, ih]
      constructor
      · rintro (h | ⟨j, hj⟩)
        · exact ⟨0, h⟩
        · exact ⟨j + 1, by simpa [List.drop_succ_cons] using hj⟩
      · rintro ⟨j, hj⟩
        cases j with
        | zero => exact Or.inl (by simpa using hj)
        | succ j => exact Or.inr ⟨j, by simpa [List.drop_succ_cons] using hj⟩

lemma replaceFuel_eq_self (pat repl : List Char) :
    ∀ (fuel : Nat) (s : List Char), s.length ≤ fuel → hasSubstr pat s = false →
      replaceFuel pat repl fuel s = s
  | 0, _, _, _ => rfl
  | _ + 1, [], _, _ => rfl
  | fuel + 1, c :: rest, hlen, hsub => by
      have hsub' : pat.isPrefixOf (c :: rest) = false ∧ hasSubstr pat rest = false := by
        simpa [hasSubstr] using hsub
      have hlen' : rest.length ≤ fuel := by
        simp only [List.length_cons] at hlen
        omega
      simp [replaceFuel, hsub'.1, replaceFuel_eq_self pat repl fuel rest hlen' hsub'.2]

lemma listReplace_eq_self {pat : List Char} (repl : List Char) {s : List Char}
    (h : hasSubstr pat s = false) : listReplace pat repl s = s := by
  by_cases hp : pat = []
  · simp [listReplace, hp]
  · simp [listReplace, hp, replaceFuel_eq_self pat repl s.length s le_rfl h]

lemma pyJoin_singleton (t : String) : pyJoin [t] = t := by
  cases t
  simp [pyJoin]

lemma pyReplace_eq_self {s pat : String} (repl : String)
    (h : hasSubstr pat.data s.data = false) : pyReplace s pat repl = s := by
  cases s
  simp only [pyReplace, listReplace_eq_self repl.data h]

/-! ### C5, C9: the empty-batch behaviour of write_csv -/

/-- C5: for an empty record sequence, write_csv fails with an explicit
error (the IndexError raised by company_details_list[0]) rather than
silently producing output. -/
theorem write_csv_empty_errors (fs : FileState) :
    (write_csv [] fs).2 = Except.error "IndexError: list index out of range" := rfl

/-- C9: write_csv opens the destination for writing before inspecting the
record sequence, so on an empty batch it first creates or truncates the
file to empty and only then fails: the error path still modifies the
destination. -/
theorem write_csv_truncates_before_error :
    (∀ fs : FileState, (write_csv [] fs).1 = some []) ∧
    (write_csv [] none).1 ≠ none ∧
    (write_csv [] (some [["old"]])).1 = some [] ∧
    (∀ fs : FileState, (write_csv [] fs).2 ≠ Except.ok ()) := by
  refine ⟨fun _ => rfl, by simp [write_csv], rfl, fun fs => by simp [write_csv]⟩

/-! ### C1: the key set of a record -/

/-- C1 counterexample: on the document where no selector matches anything,
extract_company_details returns a record whose key set is the ten keys, not
the eleven canonical ones: input_company_name is not among its keys. -/
theorem extract_company_details_ten_keys_only :
    (extract_company_details ⟨[], [], [], [], [], [], [], [], [], []⟩).map Prod.fst = tenKeys ∧
    (extract_company_details ⟨[], [], [], [], [], [], [], [], [], []⟩).map Prod.fst ≠ elevenKeys ∧
    "input_company_name" ∉
      (extract_company_details ⟨[], [], [], [], [], [], [], [], [], []⟩).map Prod.fst := by
  refine ⟨rfl, by decide, by decide⟩

/-- C1 (amended): extract_company_details always returns exactly the ten
canonical keys in canonical order, and the batch loop appends
input_company_name to each record it accumulates, so every record in the
output sequence carries exactly the eleven canonical keys. -/
theorem record_key_set_stable :
    (∀ doc : ParsedDoc, (extract_company_details doc).map Prod.fst = tenKeys) ∧
    (∀ (net : String → Nat → Response) (parse : String → ParsedDoc)
        (queries : List String) (r : CompanyRecord),
        r ∈ (scrape_loop net parse queries).1 → r.map Prod.fst = elevenKeys) := by
  have hten : ∀ doc : ParsedDoc, (extract_company_details doc).map Prod.fst = tenKeys :=
    fun _ => rfl
  refine ⟨hten, ?_⟩
  intro net parse queries
  induction queries with
  | nil => intro r hr; simp [scrape_loop] at hr
  | cons c rest ih =>
      intro r hr
      cases hcase : get_response (net c) with
      | none =>
          simp only [scrape_loop, hcase] at hr
          exact ih r hr
      | some resp =>
          simp only [scrape_loop, hcase, List.mem_cons] at hr
          rcases hr with h | h
          · subst h
            simp [List.map_append, elevenKeys, hten]
          · exact ih r h

def exNet : String → Nat → Response := fun _ _ => ⟨200, "page"⟩

def exParse : String → ParsedDoc := fun _ => ⟨["Amazon"], [], [], [], [], [], [], [], [], []⟩

/-- Witness for record_key_set_stable at a concrete one-query run. -/
theorem record_key_set_stable_witness :
    (extract_company_details (exParse "page") ++
        [("input_company_name", some "Amazon")]).map Prod.fst = elevenKeys :=
  record_key_set_stable.2 exNet exParse ["Amazon"]
    (extract_company_details (exParse "page") ++ [("input_company_name", some "Amazon")])
    (by decide)

/-! ### C6: the stock-price normalization example -/

/-- C6: the stock-price fragments of end-to-end scenario 3 normalize to
123.45USD: fragments joined in order, the label stripped, the narrow
no-break space removed, surrounding whitespace trimmed. -/
theorem stock_price_normalization_example :
    normalize_stock_price ["Stock price: ", "123.45", "\u202fUSD"] = some "123.45USD" := by
  decide

/-! ### C2: the retry policy of get_response -/

/-- How many requests the retry loop performs before returning. -/
def get_response_calls_loop (net : Nat → Response) : Nat → Nat → Nat
  | _, 0 => 0
  | attempt, remaining + 1 =>
      if (net attempt).status_code = 200 then 1
      else 1 + get_response_calls_loop net (attempt + 1) remaining

/-- How many requests one call of get_response performs. -/
def get_response_calls (net : Nat → Response) : Nat :=
  get_response_calls_loop net 0 3

/-- C2: get_response performs at most 3 request attempts (its result only
depends on the first three responses), returns the response of the first
attempt whose status code is exactly 200, and returns None without raising
when no attempt returns status 200. -/
theorem get_response_retry_policy (net : Nat → Response) :
    get_response_calls net ≤ 3 ∧
    (∀ net' : Nat → Response, (∀ i < 3, net i = net' i) →
        get_response net = get_response net') ∧
    (∀ i < 3, (net i).status_code = 200 → (∀ j < i, (net j).status_code ≠ 200) →
        get_response net = some (net i)) ∧
    ((∀ i < 3, (net i).status_code ≠ 200) → get_response net = none) := by
  refine ⟨?_, ?_, ?_, ?_⟩
  · by_cases h0 : (net 0).status_code = 200 <;>
      by_cases h1 : (net 1).status_code = 200 <;>
      by_cases h2 : (net 2).status_code = 200 <;>
      simp [get_response_calls, get_response_calls_loop, h0, h1, h2]
  · intro net' h
    have e0 := h 0 (by omega)
    have e1 := h 1 (by omega)
    have e2 := h 2 (by omega)
    simp [get_response, get_response_loop, e0, e1, e2]
  · intro i hi h200 hfirst
    interval_cases i
    · simp [get_response, get_response_loop, h200]
    · have h0 := hfirst 0 (by omega)
      simp [get_response, get_response_loop, h0, h200]
    · have h0 := hfirst 0 (by omega)
      have h1 := hfirst 1 (by omega)
      simp [get_response, get_response_loop, h0, h1, h200]
  · intro h
    have h0 := h 0 (by omega)
    have h1 := h 1 (by omega)
    have h2 := h 2 (by omega)
    simp [get_response, get_response_loop, h0, h1, h2]

def exNetFail : Nat → Response := fun _ => ⟨503, "blocked"⟩

def exNetSecond : Nat → Response := fun k => if k = 1 then ⟨200, "ok-page"⟩ else ⟨500, "err"⟩

/-- Witness for get_response_retry_policy: a run whose three attempts all
fail yields None, and a run whose second attempt is the first success
yields that response. -/
theorem get_response_retry_policy_witness :
    get_response exNetFail = none ∧ get_response exNetSecond = some ⟨200, "ok-page"⟩ := by
  constructor
  · exact (get_response_retry_policy exNetFail).2.2.2 (by decide)
  · exact (get_response_retry_policy exNetSecond).2.2.1 1 (by omega) (by decide) (by decide)

/-! ### C3: the batch loop -/

/-- C3: the batch loop excludes every query whose fetch failed on all
attempts, emits a diagnostic naming it, and accumulates exactly one record
per query with a usable page, in input order minus the skipped failures. -/
theorem scrape_loop_filters_failures (net : String → Nat → Response)
    (parse : String → ParsedDoc) (queries : List String) :
    (scrape_loop net parse queries).1 =
      queries.filterMap (fun company =>
        (get_response (net company)).map (fun response =>
          extract_company_details (parse response.text) ++
            [("input_company_name", some company)])) ∧
    (scrape_loop net parse queries).2 =
      queries.filterMap (fun company =>
        match get_response (net company) with
        | none => some ("Invalid response for company name " ++ company)
        | some _ => none) := by
  induction queries with
  | nil => exact ⟨rfl, rfl⟩
  | cons c rest ih =>
      cases hcase : get_response (net c) with
      | none =>
          exact ⟨by simp [scrape_loop, hcase, List.filterMap_cons, ih.1],
                 by simp [scrape_loop, hcase, List.filterMap_cons, ih.2]⟩
      | some resp =>
          exact ⟨by simp [scrape_loop, hcase, List.filterMap_cons, ih.1],
                 by simp [scrape_loop, hcase, List.filterMap_cons, ih.2]⟩

/-! ### C4: absent marker versus normalized value, field by field -/

/-- C4: for every parsed document, each field whose selector yielded no
fragments is stored as the absent marker none (never an empty string), and
each field with fragments is stored as some of its field-specific
normalization (a string that may be empty). -/
theorem extract_field_absent_marker (doc : ParsedDoc) :
    ((extract_company_details doc).lookup "company_name" =
        some (match doc.title_texts with | [] => none | x :: _ => some x)) ∧
    ((extract_company_details doc).lookup "company_type" =
        some (match doc.subtitle_texts with | [] => none | x :: _ => some x)) ∧
    ((extract_company_details doc).lookup "website" =
        some (match doc.website_hrefs with | [] => none | x :: _ => some x)) ∧
    ((extract_company_details doc).lookup "description" =
        some (match doc.description_texts with | [] => none | x :: _ => some x)) ∧
    ((extract_company_details doc).lookup "stock_price" =
        some (match doc.stock_price_texts with
          | [] => none
          | x :: xs => some (pyStrip (pyReplace (pyReplace (pyJoin (x :: xs))
              "Stock price:" "") "\u202f" "")))) ∧
    ((extract_company_details doc).lookup "ceo" =
        some (match doc.ceo_texts with
          | [] => none
          | x :: xs => some (pyStrip (pyReplace (pyJoin (x :: xs)) "CEO" "")))) ∧
    ((extract_company_details doc).lookup "founder" =
        some (match doc.founder_texts with
          | [] => none
          | x :: xs => some (pyStrip (pyReplace (pyReplace (pyJoin (x :: xs))
              "Founders:" "") "Founder:" "")))) ∧
    ((extract_company_details doc).lookup "founded" =
        some (match doc.founded_texts with
          | [] => none
          | x :: xs => some (pyStrip (pyReplace (pyJoin (x :: xs)) "Founded:" "")))) ∧
    ((extract_company_details doc).lookup "headquarters" =
        some (match doc.headquarters_texts with
          | [] => none
          | x :: xs => some (pyStrip (pyReplace (pyJoin (x :: xs)) "Headquarters:" "")))) ∧
    ((extract_company_details doc).lookup "number_of_employees" =
        some (match doc.employees_texts with
          | [] => none
          | x :: xs => some (pyStrip (pyReplace (pyJoin (x :: xs))
              "Number of employees:" "")))) := by
  obtain ⟨t1, t2, t3, t4, t5, t6, t7, t8, t9, t10⟩ := doc
  refine ⟨?_, ?_, ?_, ?_, ?_, ?_, ?_, ?_, ?_, ?_⟩
  · cases t1 <;> rfl
  · cases t2 <;> rfl
  · cases t3 <;> rfl
  · cases t4 <;> rfl
  · cases t5 <;> rfl
  · cases t6 <;> rfl
  · cases t7 <;> rfl
  · cases t8 <;> rfl
  · cases t9 <;> rfl
  · cases t10 <;> rfl

/-! ### C7: idempotence of normalization on clean input -/

/-- C7 counterexample: the text 1 2 contains neither the stock-price
label nor surrounding whitespace, yet stock-price normalization changes it
to 12, because the narrow no-break space is removed from anywhere in the
text, not only at its ends. -/
theorem stock_price_norm_not_idempotent_on_clean :
    hasSubstr "Stock price:".data "1 2".data = false ∧
    pyStrip "1 2" = "1 2" ∧
    normalize_stock_price ["1 2"] = some "12" ∧
    ("12" : String) ≠ "1 2" :=
  ⟨by decide, by decide, by decide, by decide⟩

/-- C7 (amended): each field's normalization is idempotent on clean input:
a text containing none of the substrings the field removes (its label or
labels, and for the stock price also the narrow no-break space) and with no
surrounding whitespace is returned unchanged; the four first-fragment
fields return a lone fragment verbatim. -/
theorem normalization_idempotent_on_clean :
    (∀ t : String, firstOrNone [t] = some t) ∧
    (∀ t : String, hasSubstr "Stock price:".data t.data = false →
        hasSubstr " ".data t.data = false → pyStrip t = t →
        normalize_stock_price [t] = some t) ∧
    (∀ t : String, hasSubstr "CEO".data t.data = false → pyStrip t = t →
        normalize_ceo [t] = some t) ∧
    (∀ t : String, hasSubstr "Founders:".data t.data = false →
        hasSubstr "Founder:".data t.data = false → pyStrip t = t →
        normalize_founder [t] = some t) ∧
    (∀ t : String, hasSubstr "Founded:".data t.data = false → pyStrip t = t →
        normalize_founded [t] = some t) ∧
    (∀ t : String, hasSubstr "Headquarters:".data t.data = false → pyStrip t = t →
        normalize_headquarters [t] = some t) ∧
    (∀ t : String, hasSubstr "Number of employees:".data t.data = false → pyStrip t = t →
        normalize_employees [t] = some t) := by
  refine ⟨fun t => rfl, ?_, ?_, ?_, ?_, ?_, ?_⟩
  · intro t h1 h2 hstrip
    simp [normalize_stock_price, pyJoin_singleton, pyReplace_eq_self "" h1,
      pyReplace_eq_self "" h2, hstrip]
  · intro t h1 hstrip
    simp [normalize_ceo, pyJoin_singleton, pyReplace_eq_self "" h1, hstrip]
  · intro t h1 h2 hstrip
    simp [normalize_founder, pyJoin_singleton, pyReplace_eq_self "" h1,
      pyReplace_eq_self "" h2, hstrip]
  · intro t h1 hstrip
    simp [normalize_founded, pyJoin_singleton, pyReplace_eq_self "" h1, hstrip]
  · intro t h1 hstrip
    simp [normalize_headquarters, pyJoin_singleton, pyReplace_eq_self "" h1, hstrip]
  · intro t h1 hstrip
    simp [normalize_employees, pyJoin_singleton, pyReplace_eq_self "" h1, hstrip]

/-- Witness for normalization_idempotent_on_clean at concrete clean
texts, one per field. -/
theorem normalization_idempotent_on_clean_witness :
    normalize_stock_price ["123.45"] = some "123.45" ∧
    normalize_ceo ["Jane Doe"] = some "Jane Doe" ∧
    normalize_founder ["Jane Doe"] = some "Jane Doe" ∧
    normalize_founded ["1994"] = some "1994" ∧
    normalize_headquarters ["Seattle"] = some "Seattle" ∧
    normalize_employees ["1,525,000"] = some "1,525,000" ∧
    firstOrNone ["Amazon"] = some "Amazon" :=
  ⟨normalization_idempotent_on_clean.2.1 "123.45" (by decide) (by decide) (by decide),
   normalization_idempotent_on_clean.2.2.1 "Jane Doe" (by decide) (by decide),
   normalization_idempotent_on_clean.2.2.2.1 "Jane Doe" (by decide) (by decide) (by decide),
   normalization_idempotent_on_clean.2.2.2.2.1 "1994" (by decide) (by decide),
   normalization_idempotent_on_clean.2.2.2.2.2.1 "Seattle" (by decide) (by decide),
   normalization_idempotent_on_clean.2.2.2.2.2.2 "1,525,000" (by decide) (by decide),
   normalization_idempotent_on_clean.1 "Amazon"⟩

/-! ### C10: label stripping is global replacement -/

lemma uniq_unbounded {pat : List Char} (hp : pat ≠ []) (s : List Char) (k : Nat)
    (h : ∀ i < s.length, pat.isPrefixOf (s.drop i) = true → i = k) :
    ∀ i, pat.isPrefixOf (s.drop i) = true → i = k := by
  intro i hi
  by_cases hlt : i < s.length
  · exact h i hlt hi
  · exfalso
    rw [List.drop_eq_nil_of_le (by omega), isPrefixOf_nil_eq] at hi
    cases pat with
    | nil => exact hp rfl
    | cons p ps => simp at hi

lemma replaceFuel_single_occurrence (pat : List Char) (hp : pat ≠ []) :
    ∀ (a b : List Char) (fuel : Nat),
      (a ++ pat ++ b).length ≤ fuel →
      (∀ i, pat.isPrefixOf ((a ++ pat ++ b).drop i) = true → i = a.length) →
      replaceFuel pat [] fuel (a ++ pat ++ b) = a ++ b := by
  intro a
  induction a with
  | nil =>
      intro b fuel hlen huniq
      obtain ⟨p, ps, rfl⟩ : ∃ p ps, pat = p :: ps := by
        cases pat with
        | nil => exact absurd rfl hp
        | cons p ps => exact ⟨p, ps, rfl⟩
      cases fuel with
      | zero =>
          exfalso
          simp [List.length_append, List.length_cons] at hlen
      | succ f =>
          have hpre : (p :: ps).isPrefixOf ((p :: ps) ++ b) = true :=
            isPrefixOf_append_self (p :: ps) b
          have hnosub : hasSubstr (p :: ps) b = false := by
            cases hcase : hasSubstr (p :: ps) b
            · rfl
            · exfalso
              obtain ⟨j, hj⟩ := (hasSubstr_iff (p :: ps) b).mp hcase
              have hdrop :
                  (([] : List Char) ++ (p :: ps) ++ b).drop ((p :: ps).length + j) =
                    b.drop j := by
                show (p :: (ps ++ b)).drop ((p :: ps).length + j) = b.drop j
                have harith : (p :: ps).length + j = (ps.length + j) + 1 := by
                  simp only [List.length_cons]
                  omega
                rw [harith, List.drop_succ_cons, List.drop_append]
              have hcontra := huniq ((p :: ps).length + j) (by rw [hdrop]; exact hj)
              simp only [List.length_cons, List.length_nil] at hcontra
              omega
          have hblen : b.length ≤ f := by
            simp only [List.nil_append, List.length_append, List.length_cons] at hlen
            omega
          show replaceFuel (p :: ps) [] (f + 1) ((p :: ps) ++ b) = b
          simp [replaceFuel, hpre, List.drop_succ_cons, List.drop_left,
            replaceFuel_eq_self (p :: ps) [] f b hblen hnosub]
  | cons x a' ih =>
      intro b fuel hlen huniq
      cases fuel with
      | zero =>
          exfalso
          simp [List.length_append, List.length_cons] at hlen
      | succ f =>
          cases hx : pat.isPrefixOf (((x :: a') ++ pat ++ b).drop 0) with
          | true =>
              have h0 := huniq 0 hx
              simp only [List.length_cons] at h0
              omega
          | false =>
              have hx' : pat.isPrefixOf (x :: (a' ++ pat ++ b)) = false := by
                simpa using hx
              have hlen' : (a' ++ pat ++ b).length ≤ f := by
                simp only [List.cons_append, List.length_cons] at hlen
                omega
              have huniq' :
                  ∀ i, pat.isPrefixOf ((a' ++ pat ++ b).drop i) = true → i = a'.length := by
                intro i hi
                have hdropeq :
                    ((x :: a') ++ pat ++ b).drop (i + 1) = (a' ++ pat ++ b).drop i := by
                  simp [List.cons_append, List.drop_succ_cons]
                have hstep := huniq (i + 1) (by rw [hdropeq]; exact hi)
                simp only [List.length_cons] at hstep
                omega
              have hrec := ih b f hlen' huniq'
              have hx2 : pat.isPrefixOf (x :: (a' ++ (pat ++ b))) = false := by
                simpa [List.append_assoc] using hx'
              have hx3 : ¬ pat <+: x :: (a' ++ (pat ++ b)) := by
                intro hcon
                obtain ⟨t, ht⟩ := hcon
                rw [← ht, isPrefixOf_append_self pat t] at hx2
                cases hx2
              have hrec2 : replaceFuel pat [] f (a' ++ (pat ++ b)) = a' ++ b := by
                rw [← List.append_assoc]
                exact hrec
              show replaceFuel pat [] (f + 1) (x :: (a' ++ pat ++ b)) = x :: (a' ++ b)
              simp [replaceFuel, hx3, hrec2]

lemma listReplace_single_occurrence {pat : List Char} (hp : pat ≠ []) (a b : List Char)
    (huniq : ∀ i, pat.isPrefixOf ((a ++ pat ++ b).drop i) = true → i = a.length) :
    listReplace pat [] (a ++ pat ++ b) = a ++ b := by
  simp only [listReplace, if_neg hp]
  exact replaceFuel_single_occurrence pat hp a b (a ++ pat ++ b).length le_rfl huniq

lemma pyReplace_single_occurrence (a L b : String) (hp : L.data ≠ [])
    (huniq : ∀ i < (a ++ L ++ b).data.length,
        L.data.isPrefixOf ((a ++ L ++ b).data.drop i) = true → i = a.data.length) :
    pyReplace (a ++ L ++ b) L "" = a ++ b := by
  have hu := uniq_unbounded hp (a ++ L ++ b).data a.data.length huniq
  calc pyReplace (a ++ L ++ b) L ""
      = String.mk (listReplace L.data [] (a.data ++ L.data ++ b.data)) := rfl
    _ = String.mk (a.data ++ b.data) := by
        rw [listReplace_single_occurrence hp a.data b.data hu]
    _ = a ++ b := rfl

/-- C10: label stripping is global substring replacement, not prefix
removal: for each labelled field, an occurrence of the label anywhere in
the joined fragment text, mid-string included, is removed (hypotheses: the
label occurs exactly once, and the rest of the text contains no other
substring that the same normalization removes). -/
theorem label_strip_global_replacement :
    (∀ a b : String,
      (∀ i < (a ++ "Stock price:" ++ b).data.length,
          "Stock price:".data.isPrefixOf ((a ++ "Stock price:" ++ b).data.drop i) = true →
            i = a.data.length) →
      hasSubstr " ".data (a ++ b).data = false →
      normalize_stock_price [a ++ "Stock price:" ++ b] = some (pyStrip (a ++ b))) ∧
    (∀ a b : String,
      (∀ i < (a ++ "CEO" ++ b).data.length,
          "CEO".data.isPrefixOf ((a ++ "CEO" ++ b).data.drop i) = true →
            i = a.data.length) →
      normalize_ceo [a ++ "CEO" ++ b] = some (pyStrip (a ++ b))) ∧
    (∀ a b : String,
      (∀ i < (a ++ "Founders:" ++ b).data.length,
          "Founders:".data.isPrefixOf ((a ++ "Founders:" ++ b).data.drop i) = true →
            i = a.data.length) →
      hasSubstr "Founder:".data (a ++ b).data = false →
      normalize_founder [a ++ "Founders:" ++ b] = some (pyStrip (a ++ b))) ∧
    (∀ a b : String,
      (∀ i < (a ++ "Founded:" ++ b).data.length,
          "Founded:".data.isPrefixOf ((a ++ "Founded:" ++ b).data.drop i) = true →
            i = a.data.length) →
      normalize_founded [a ++ "Founded:" ++ b] = some (pyStrip (a ++ b))) ∧
    (∀ a b : String,
      (∀ i < (a ++ "Headquarters:" ++ b).data.length,
          "Headquarters:".data.isPrefixOf ((a ++ "Headquarters:" ++ b).data.drop i) = true →
            i = a.data.length) →
      normalize_headquarters [a ++ "Headquarters:" ++ b] = some (pyStrip (a ++ b))) ∧
    (∀ a b : String,
      (∀ i < (a ++ "Number of employees:" ++ b).data.length,
          "Number of employees:".data.isPrefixOf
              ((a ++ "Number of employees:" ++ b).data.drop i) = true →
            i = a.data.length) →
      normalize_employees [a ++ "Number of employees:" ++ b] = some (pyStrip (a ++ b))) := by
  refine ⟨?_, ?_, ?_, ?_, ?_, ?_⟩
  · intro a b hu hn
    simp [normalize_stock_price, pyJoin_singleton,
      pyReplace_single_occurrence a "Stock price:" b (by decide) hu,
      pyReplace_eq_self "" hn]
  · intro a b hu
    simp [normalize_ceo, pyJoin_singleton,
      pyReplace_single_occurrence a "CEO" b (by decide) hu]
  · intro a b hu hn
    simp [normalize_founder, pyJoin_singleton,
      pyReplace_single_occurrence a "Founders:" b (by decide) hu,
      pyReplace_eq_self "" hn]
  · intro a b hu
    simp [normalize_founded, pyJoin_singleton,
      pyReplace_single_occurrence a "Founded:" b (by decide) hu]
  · intro a b hu
    simp [normalize_headquarters, pyJoin_singleton,
      pyReplace_single_occurrence a "Headquarters:" b (by decide) hu]
  · intro a b hu
    simp [normalize_employees, pyJoin_singleton,
      pyReplace_single_occurrence a "Number of employees:" b (by decide) hu]

/-- Witness for label_strip_global_replacement: each labelled field
removes a mid-string occurrence of its label. -/
theorem label_strip_global_replacement_witness :
    normalize_stock_price ["p: " ++ "Stock price:" ++ " 7"] = some (pyStrip ("p: " ++ " 7")) ∧
    normalize_ceo ["Jane " ++ "CEO" ++ " Doe"] = some (pyStrip ("Jane " ++ " Doe")) ∧
    normalize_founder ["By " ++ "Founders:" ++ " J, K"] = some (pyStrip ("By " ++ " J, K")) ∧
    normalize_founded ["In " ++ "Founded:" ++ " 1994"] = some (pyStrip ("In " ++ " 1994")) ∧
    normalize_headquarters ["At " ++ "Headquarters:" ++ " Seattle"] =
      some (pyStrip ("At " ++ " Seattle")) ∧
    normalize_employees ["n " ++ "Number of employees:" ++ " 5"] =
      some (pyStrip ("n " ++ " 5")) :=
  ⟨label_strip_global_replacement.1 "p: " " 7" (by decide) (by decide),
   label_strip_global_replacement.2.1 "Jane " " Doe" (by decide),
   label_strip_global_replacement.2.2.1 "By " " J, K" (by decide) (by decide),
   label_strip_global_replacement.2.2.2.1 "In " " 1994" (by decide),
   label_strip_global_replacement.2.2.2.2.1 "At " " Seattle" (by decide),
   label_strip_global_replacement.2.2.2.2.2 "n " " 5" (by decide)⟩

/-! ### C8: the CSV layout for a non-empty batch -/

lemma write_rows_all_ok (fieldnames : List String) (l : List CompanyRecord) :
    ∀ written : List (List String),
      (∀ r ∈ l, r.any (fun kv => !(fieldnames.contains kv.1)) = false) →
      write_rows fieldnames l written =
        (some (written ++ l.map (fun r => fieldnames.map (fun k =>
            match r.lookup k with
            | some (some s) => s
            | some none => ""
            | none => ""))), Except.ok ()) := by
  induction l with
  | nil =>
      intro written _
      simp [write_rows]
  | cons r rest ih =>
      intro written h
      have hr : writerow fieldnames r = Except.ok (fieldnames.map (fun k =>
          match r.lookup k with
          | some (some s) => s
          | some none => ""
          | none => "")) := by
        simp only [writerow, h r (List.mem_cons_self r rest), if_neg]
        simp
      have hrest := ih (written ++ [fieldnames.map (fun k =>
          match r.lookup k with
          | some (some s) => s
          | some none => ""
          | none => "")]) (fun r' hr' => h r' (List.mem_cons_of_mem r hr'))
      simp only [write_rows, hr, hrest]
      simp

/-- C8: for every non-empty record sequence whose records all carry the
eleven canonical keys, write_csv derives the column order from the keys of
the first record, writes that key list as the header row followed by one
data row per record in sequence order, and writes each absent-marker value
as the empty cell. -/
theorem write_csv_nonempty_spec (fs : FileState) (first : CompanyRecord)
    (rest : List CompanyRecord)
    (h : ∀ r ∈ first :: rest, r.map Prod.fst = elevenKeys) :
    first.map Prod.fst = elevenKeys ∧
    write_csv (first :: rest) fs =
      (some ((first.map Prod.fst) ::
          (first :: rest).map (fun r => (first.map Prod.fst).map (fun k =>
            match r.lookup k with
            | some (some s) => s
            | some none => ""
            | none => ""))), Except.ok ()) := by
  have hfirst : first.map Prod.fst = elevenKeys := h first (List.mem_cons_self first rest)
  refine ⟨hfirst, ?_⟩
  have hok : ∀ r ∈ first :: rest,
      r.any (fun kv => !((first.map Prod.fst).contains kv.1)) = false := by
    intro r hr
    rw [List.any_eq_false]
    intro kv hkv
    have hmem : kv.1 ∈ elevenKeys := by
      have hmap := List.mem_map_of_mem Prod.fst hkv
      rwa [h r hr] at hmap
    rw [hfirst]
    simpa using hmem
  have hrows := write_rows_all_ok (first.map Prod.fst) (first :: rest)
    [first.map Prod.fst] hok
  simpa [write_csv] using hrows

def exRecord : CompanyRecord :=
  [("company_name", some "Amazon"), ("company_type", none), ("website", none),
   ("description", none), ("stock_price", some "123.45USD"), ("ceo", none),
   ("founder", none), ("founded", none), ("headquarters", none),
   ("number_of_employees", none), ("input_company_name", some "Amazon")]

/-- Witness for write_csv_nonempty_spec on a one-record batch. -/
theorem write_csv_nonempty_spec_witness :
    write_csv [exRecord] none =
      (some ((exRecord.map Prod.fst) ::
          [exRecord].map (fun r => (exRecord.map Prod.fst).map (fun k =>
            match r.lookup k with
            | some (some s) => s
            | some none => ""
            | none => ""))), Except.ok ()) :=
  (write_csv_nonempty_spec none exRecord [] (by decide)).2

end Scraper
